import Mathlib

/-!
Verification of the request-cache service of the user-directory repository
(`src/services/api.ts`, reproduced alongside its tests).  The service is
shallowly embedded: JSON values carry JavaScript truthiness, the raw
`makeRequest` boundary is modelled over an explicit fetch outcome, the
retry loop is a fuel-indexed structural recursion that records a trace of
raw invocations and backoff waits, and the cache / pending-request tables
are association lists with JS `Map` semantics.
-/

namespace ApiSvc

/-- A JSON value as produced by `response.json()`.  `jnull` is the JS
`null`; numbers are modelled as integers (the payloads of this service are
ids and records, never fractional). -/
inductive JsonValue where
  | jnull : JsonValue
  | jbool : Bool → JsonValue
  | jnum : Int → JsonValue
  | jstr : String → JsonValue
  | jarr : List JsonValue → JsonValue
  | jobj : List (String × JsonValue) → JsonValue


/-- JavaScript truthiness of a JSON value: `null`, `false`, `0` and the
empty string are falsy; every array and object is truthy. -/
def JsonValue.truthy : JsonValue → Bool
  | .jnull => false
  | .jbool b => b
  | .jnum n => n != 0
  | .jstr s => s != ""
  | .jarr _ => true
  | .jobj _ => true

/-- A JavaScript value thrown or rejected with: either an `Error` object
carrying a message, or any non-`Error` value. -/
inductive JsThrown where
  | errorObj : String → JsThrown
  | other : JsThrown


/-- `ERROR_MESSAGES.NETWORK_ERROR` from `constants/api.ts`. -/
def NETWORK_ERROR_MSG : String := "Network error occurred"

/-- `ERROR_MESSAGES.UNKNOWN_ERROR` from `constants/api.ts`. -/
def UNKNOWN_ERROR_MSG : String := "An unknown error occurred"

/-- `error instanceof Error ? error.message : ERROR_MESSAGES.UNKNOWN_ERROR`. -/
def jsThrownMessage : JsThrown → String
  | .errorObj m => m
  | .other => UNKNOWN_ERROR_MSG

/-- The outcome of one invocation of the platform `fetch`:
either the promise rejects with a thrown value, or it resolves to a
response with an `ok` flag, a status code, and a `json()` body that
itself either parses to a JSON value or throws. -/
inductive FetchOutcome where
  | rejected : JsThrown → FetchOutcome
  | resolved : Bool → Nat → Except JsThrown JsonValue → FetchOutcome


/-- `ApiResponse<T>` of the source: `{ data: T | null, error: string | null }`.
JS `null` in the `data` field is `JsonValue.jnull`; the `error` field is a
string or `null`, modelled as `Option String`. -/
structure ApiResponse where
  data : JsonValue
  error : Option String


/-- The body of the `try` block of `ApiService.makeRequest`: await the
fetch (a rejection rethrows), throw
`Error("HTTP error! status: " + status)` when `ok` is false, otherwise
await `response.json()` (a parse failure rethrows). -/
def tryBlock (o : FetchOutcome) : Except JsThrown JsonValue :=
  match o with
  | .rejected t => .error t
  | .resolved ok status body =>
    if ok then body
    else .error (.errorObj ("HTTP error! status: " ++ toString status))

/-- `ApiService.makeRequest` over a network environment mapping a URL and
a call index to the fetch outcome: run the `try` block and convert any
thrown value into `{ data: null, error: message }`, a parsed body into
`{ data, error: null }`. -/
def makeRequest (network : String → Nat → FetchOutcome) (url : String)
    (callIdx : Nat) : ApiResponse :=
  match tryBlock (network url callIdx) with
  | .ok data => ⟨data, none⟩
  | .error t => ⟨.jnull, some (jsThrownMessage t)⟩

/-- Observable trace of one `ApiService.retryRequest` run: the returned
response, how many times the request function was invoked, and the
backoff waits (in ms, in order) that were awaited. -/
structure RetryTrace where
  result : ApiResponse
  calls : Nat
  waits : List Nat


/-- The body of `ApiService.retryRequest`'s
`for (let attempt = 1; attempt <= maxRetries; attempt++)` loop, with an
explicit fuel argument to make the recursion structural (the wrapper
passes fuel `maxRetries + 1`, enough for every iteration plus the loop
exit).  Each iteration invokes the request function; a JS-truthy `data`
returns at once, the final attempt returns its own result, and otherwise
the loop awaits `delay * attempt` ms and continues.  Falling out of the
loop yields the defensive `{ data: null, error: NETWORK_ERROR }`. -/
def retryRequestFrom (requestFn : Nat → ApiResponse) (maxRetries delay : Nat) :
    Nat → Nat → Nat → List Nat → RetryTrace
  | 0, _, calls, waits => ⟨⟨.jnull, some NETWORK_ERROR_MSG⟩, calls, waits⟩
  | fuel + 1, attempt, calls, waits =>
    if attempt ≤ maxRetries then
      let result := requestFn attempt
      if result.data.truthy then ⟨result, calls + 1, waits⟩
      else if attempt = maxRetries then ⟨result, calls + 1, waits⟩
      else retryRequestFrom requestFn maxRetries delay fuel (attempt + 1)
        (calls + 1) (waits ++ [delay * attempt])
    else ⟨⟨.jnull, some NETWORK_ERROR_MSG⟩, calls, waits⟩

/-- `ApiService.retryRequest` (source defaults: `maxRetries = 3`,
`delay = 1000`). -/
def retryRequest (requestFn : Nat → ApiResponse) (maxRetries delay : Nat) :
    RetryTrace :=
  retryRequestFrom requestFn maxRetries delay (maxRetries + 1) 1 0 []

/-- JS `Map.get`: look the key up in the association list. -/
def mapGet {α : Type} : List (String × α) → String → Option α
  | [], _ => none
  | (k2, v) :: rest, k => if k2 = k then some v else mapGet rest k

/-- JS `Map.set`: replace the entry in place when the key is present,
otherwise append it. -/
def mapSet {α : Type} : List (String × α) → String → α → List (String × α)
  | [], k, v => [(k, v)]
  | (k2, v2) :: rest, k, v =>
    if k2 = k then (k, v) :: rest else (k2, v2) :: mapSet rest k v

/-- JS `Map.delete`: drop the entry for the key.  (`Map` keys are unique,
so dropping every matching entry agrees with `Map.delete` on every state
the service can build.) -/
def mapDelete {α : Type} : List (String × α) → String → List (String × α)
  | [], _ => []
  | (k2, v2) :: rest, k =>
    if k2 = k then mapDelete rest k else (k2, v2) :: mapDelete rest k

/-- A cache entry `{ data, timestamp }` as stored by `setCachedData`. -/
structure CacheEntry where
  data : JsonValue
  timestamp : Nat


/-- A pending-table entry: the in-flight operation's identity together
with the response value its promise settles with (promises resolve once,
so the value is fixed at issue time in this model). -/
structure PendingEntry where
  opId : Nat
  result : ApiResponse


/-- The mutable state of the `ApiService` singleton: the response cache,
the pending-request table, and a counter minting operation identities. -/
structure SrvState where
  cache : List (String × CacheEntry)
  pending : List (String × PendingEntry)
  nextOpId : Nat


/-- `CACHE_DURATION = 5 * 60 * 1000`. -/
def CACHE_DURATION : Nat := 5 * 60 * 1000

/-- `ApiService.getCachedData`: a miss returns `null`; an entry with
`now - timestamp > CACHE_DURATION` is deleted lazily and `null` is
returned; otherwise the stored data is returned.  The state after the
lookup is returned alongside. -/
def getCachedData (st : SrvState) (key : String) (now : Nat) :
    JsonValue × SrvState :=
  match mapGet st.cache key with
  | none => (.jnull, st)
  | some cached =>
    if now - cached.timestamp > CACHE_DURATION then
      (.jnull, { st with cache := mapDelete st.cache key })
    else (cached.data, st)

/-- `ApiService.setCachedData`: store the value under the key with the
current timestamp. -/
def setCachedData (st : SrvState) (key : String) (data : JsonValue)
    (now : Nat) : SrvState :=
  { st with cache := mapSet st.cache key ⟨data, now⟩ }

/-- What the synchronous prefix of `makeCachedRequest` hands the caller:
a cache hit's response, the already-pending operation, or a freshly
started (and synchronously registered) operation. -/
inductive StartOutcome where
  | cached : ApiResponse → StartOutcome
  | joined : PendingEntry → StartOutcome
  | started : PendingEntry → StartOutcome


/-- The synchronous prefix of `ApiService.makeCachedRequest`, up to the
first suspension point: check the cache (truthy data returns at once),
check the pending table (an existing promise is returned as is), and
otherwise mint a new operation — settling with `r` — and register it in
the pending table before control returns. -/
def startRequest (st : SrvState) (key : String) (now : Nat)
    (r : ApiResponse) : StartOutcome × SrvState :=
  let looked := getCachedData st key now
  if looked.1.truthy then (.cached ⟨looked.1, none⟩, looked.2)
  else
    match mapGet looked.2.pending key with
    | some p => (.joined p, looked.2)
    | none =>
      let p : PendingEntry := ⟨looked.2.nextOpId, r⟩
      (.started p,
        { looked.2 with
          pending := mapSet looked.2.pending key p
          nextOpId := looked.2.nextOpId + 1 })

/-- The continuation of `ApiService.makeCachedRequest` once the retrying
operation settles: truthy data is stored in the cache via
`setCachedData`, and the `finally` clause removes the pending entry
unconditionally. -/
def settleRequest (st : SrvState) (key : String) (result : ApiResponse)
    (now : Nat) : SrvState :=
  let st1 := if result.data.truthy then setCachedData st key result.data now
             else st
  { st1 with pending := mapDelete st1.pending key }

/-- One full `ApiService.makeCachedRequest` call run to settlement with
no interleaved calls: returns the caller's response, the state after the
call, and how many raw fetch invocations the call performed (0 on a
cache hit or when joining a pending operation).  The retry layer uses
the source defaults `maxRetries = 3`, `delay = 1000`. -/
def makeCachedRequest (st : SrvState) (url key : String)
    (network : String → Nat → FetchOutcome) (nowStart nowSettle : Nat) :
    ApiResponse × SrvState × Nat :=
  let tr := retryRequest (fun n => makeRequest network url n) 3 1000
  match startRequest st key nowStart tr.result with
  | (.cached r, st1) => (r, st1, 0)
  | (.joined p, st1) => (p.result, st1, 0)
  | (.started p, st1) => (p.result, settleRequest st1 key p.result nowSettle, tr.calls)

/-- `API_BASE_URL` from `constants/api.ts`. -/
def API_BASE_URL : String := "https://jsonplaceholder.typicode.com"

/-- `API_ENDPOINTS.USERS`. -/
def USERS_ENDPOINT : String := API_BASE_URL ++ "/users"

/-- `ApiService.getUsers`: cached request against the users endpoint with
cache key `"users"`. -/
def getUsersCall (st : SrvState) (network : String → Nat → FetchOutcome)
    (nowStart nowSettle : Nat) : ApiResponse × SrvState × Nat :=
  makeCachedRequest st USERS_ENDPOINT "users" network nowStart nowSettle

/-- `ApiService.getUserById`: cached request against
`users/<id>` with cache key `"user-<id>"`; the id is interpolated
into both strings with no validation. -/
def getUserByIdCall (id : Int) (st : SrvState)
    (network : String → Nat → FetchOutcome) (nowStart nowSettle : Nat) :
    ApiResponse × SrvState × Nat :=
  makeCachedRequest st (USERS_ENDPOINT ++ "/" ++ toString id)
    ("user-" ++ toString id) network nowStart nowSettle

/-- `ApiService.clearCache`: `this.cache.clear()`. -/
def clearCache (st : SrvState) : SrvState :=
  { st with cache := [] }

/-- `ApiService.clearCacheEntry`: `this.cache.delete(key)`. -/
def clearCacheEntry (st : SrvState) (key : String) : SrvState :=
  { st with cache := mapDelete st.cache key }

/-- A `Result` with exactly one of `data` / `error` non-null. -/
def exactlyOne (r : ApiResponse) : Prop :=
  (r.data ≠ .jnull ∧ r.error = none) ∨ (r.data = .jnull ∧ r.error ≠ none)

/-- A `Result` with at most one of `data` / `error` non-null: never both
populated. -/
def atMostOne (r : ApiResponse) : Prop :=
  r.data = .jnull ∨ r.error = none

/-- The initial state of the service singleton: both tables empty. -/
def emptySt : SrvState := ⟨[], [], 0⟩

/-- A network whose every fetch resolves 200 with JSON body `null`. -/
def cnetNull : String → Nat → FetchOutcome :=
  fun _ _ => .resolved true 200 (.ok .jnull)

/-- A network whose every fetch rejects with a thrown
`Error("Network down")`. -/
def cnetFail : String → Nat → FetchOutcome :=
  fun _ _ => .rejected (.errorObj "Network down")

/-- A network whose every fetch resolves 200 with a one-element array
body. -/
def cnetOk : String → Nat → FetchOutcome :=
  fun _ _ => .resolved true 200 (.ok (.jarr [.jnum 7]))

/-- A request function whose every attempt yields data `0`: non-null but
JS-falsy. -/
def zeroDataFn : Nat → ApiResponse := fun _ => ⟨.jnum 0, none⟩

/-- A state with a fresh truthy cache entry for key `"users"` (stored at
time 5) and an operation for `"users"` still in flight. -/
def stInFlight : SrvState :=
  ⟨[("users", ⟨.jarr [.jnum 7], 5⟩)],
   [("users", ⟨0, ⟨.jarr [.jnum 7], none⟩⟩)], 1⟩

/-- A network whose every fetch resolves with `ok: false`, status 500. -/
def cnet500 : String → Nat → FetchOutcome :=
  fun _ _ => .resolved false 500 (.ok (.jobj []))

/-- A state holding only a truthy cache entry for `"users"` stored at
time 5, with nothing in flight. -/
def stCachedOnly : SrvState :=
  ⟨[("users", ⟨.jarr [.jnum 7], 5⟩)], [], 1⟩

/- ### Basic lemmas about the table operations and the retry loop -/

lemma truthy_ne_jnull {v : JsonValue} (h : v.truthy = true) :
    v ≠ JsonValue.jnull := by
  intro he
  subst he
  simp [JsonValue.truthy] at h

lemma mapGet_mapSet_self {α : Type} (l : List (String × α)) (k : String)
    (v : α) : mapGet (mapSet l k v) k = some v := by
  induction l with
  | nil => simp [mapSet, mapGet]
  | cons hd tl ih =>
    obtain ⟨k2, v2⟩ := hd
    by_cases h : k2 = k
    · simp [mapSet, mapGet, h]
    · simp [mapSet, mapGet, h, ih]

lemma mapGet_mapDelete_self {α : Type} (l : List (String × α))
    (k : String) : mapGet (mapDelete l k) k = none := by
  induction l with
  | nil => simp [mapDelete, mapGet]
  | cons hd tl ih =>
    obtain ⟨k2, v2⟩ := hd
    by_cases h : k2 = k
    · simp [mapDelete, h, ih]
    · simp [mapDelete, mapGet, h, ih]

lemma mapGet_mapDelete_ne {α : Type} (l : List (String × α))
    (k k2 : String) (h : k2 ≠ k) :
    mapGet (mapDelete l k) k2 = mapGet l k2 := by
  induction l with
  | nil => simp [mapDelete]
  | cons hd tl ih =>
    obtain ⟨k3, v3⟩ := hd
    by_cases h3 : k3 = k
    · subst h3
      simp [mapDelete, mapGet, Ne.symm h, ih]
    · simp only [mapDelete, if_neg h3, mapGet]
      split <;> simp [ih]

lemma getCachedData_pending (st : SrvState) (key : String) (now : Nat) :
    (getCachedData st key now).2.pending = st.pending := by
  unfold getCachedData
  cases mapGet st.cache key with
  | none => rfl
  | some c =>
    dsimp only
    split <;> rfl

lemma getCachedData_nextOpId (st : SrvState) (key : String) (now : Nat) :
    (getCachedData st key now).2.nextOpId = st.nextOpId := by
  unfold getCachedData
  cases mapGet st.cache key with
  | none => rfl
  | some c =>
    dsimp only
    split <;> rfl

lemma getCachedData_again_falsy (st : SrvState) (key : String)
    (now1 now2 : Nat) (h : ((getCachedData st key now1).1).truthy = false) :
    ((getCachedData (getCachedData st key now1).2 key now2).1).truthy
      = false := by
  cases hc : mapGet st.cache key with
  | none => simp [getCachedData, hc, JsonValue.truthy]
  | some c =>
    by_cases hexp : now1 - c.timestamp > CACHE_DURATION
    · simp [getCachedData, hc, hexp, mapGet_mapDelete_self,
        JsonValue.truthy]
    · simp only [getCachedData, hc, gt_iff_lt, if_neg hexp] at h ⊢
      by_cases hexp2 : now2 - c.timestamp > CACHE_DURATION
      · simp [hexp2, JsonValue.truthy]
      · simp [hexp2, h]

lemma retryRequestFrom_calls_le (requestFn : Nat → ApiResponse)
    (mr d : Nat) :
    ∀ fuel attempt calls waits,
      calls ≤ (retryRequestFrom requestFn mr d fuel attempt calls waits).calls := by
  intro fuel
  induction fuel with
  | zero =>
    intro attempt calls waits
    simp [retryRequestFrom]
  | succ f ih =>
    intro attempt calls waits
    simp only [retryRequestFrom]
    split
    · split
      · simp
      · split
        · simp
        · exact le_trans (by omega)
            (ih (attempt + 1) (calls + 1) (waits ++ [d * attempt]))
    · simp

lemma retryRequestFrom_calls_succ_le (requestFn : Nat → ApiResponse)
    (mr d : Nat) :
    ∀ fuel attempt calls waits, attempt ≤ mr → 1 ≤ fuel →
      calls + 1 ≤ (retryRequestFrom requestFn mr d fuel attempt calls waits).calls := by
  intro fuel
  induction fuel with
  | zero =>
    intro attempt calls waits _ hf
    omega
  | succ f _ =>
    intro attempt calls waits ha _
    simp only [retryRequestFrom]
    rw [if_pos ha]
    split
    · simp
    · split
      · simp
      · exact retryRequestFrom_calls_le requestFn mr d f (attempt + 1)
          (calls + 1) (waits ++ [d * attempt])

lemma retryRequest_calls_pos (requestFn : Nat → ApiResponse) (mr d : Nat)
    (h : 1 ≤ mr) : 1 ≤ (retryRequest requestFn mr d).calls := by
  unfold retryRequest
  have := retryRequestFrom_calls_succ_le requestFn mr d (mr + 1) 1 0 [] h
    (by omega)
  omega

lemma retryRequestFrom_all_falsy (requestFn : Nat → ApiResponse)
    (mr d : Nat) :
    ∀ n attempt fuel calls waits, attempt + n = mr → n + 1 ≤ fuel →
      (∀ k, attempt ≤ k → k ≤ mr → ((requestFn k).data).truthy = false) →
      retryRequestFrom requestFn mr d fuel attempt calls waits
        = ⟨requestFn mr, calls + n + 1,
            waits ++ (List.range' attempt n).map (fun j => d * j)⟩ := by
  intro n
  induction n with
  | zero =>
    intro attempt fuel calls waits hsum hfuel hfalsy
    obtain ⟨f, rfl⟩ : ∃ f, fuel = f + 1 := ⟨fuel - 1, by omega⟩
    have ha : attempt = mr := by omega
    subst ha
    simp [retryRequestFrom, hfalsy attempt le_rfl le_rfl]
  | succ n ih =>
    intro attempt fuel calls waits hsum hfuel hfalsy
    obtain ⟨f, rfl⟩ : ∃ f, fuel = f + 1 := ⟨fuel - 1, by omega⟩
    have h1 : attempt ≤ mr := by omega
    have h2 : attempt ≠ mr := by omega
    simp only [retryRequestFrom, if_pos h1,
      hfalsy attempt le_rfl h1, Bool.false_eq_true, if_false, if_neg h2]
    rw [ih (attempt + 1) f (calls + 1) (waits ++ [d * attempt])
      (by omega) (by omega)
      (fun k hk1 hk2 => hfalsy k (by omega) hk2)]
    simp only [RetryTrace.mk.injEq, true_and]
    refine ⟨by omega, ?_⟩
    simp [List.range'_succ, List.append_assoc]

lemma retryRequestFrom_short_circuit (requestFn : Nat → ApiResponse)
    (mr d k : Nat) :
    ∀ n attempt fuel calls waits, attempt + n = k → n + 1 ≤ fuel →
      k ≤ mr →
      (∀ j, attempt ≤ j → j < k → ((requestFn j).data).truthy = false) →
      ((requestFn k).data).truthy = true →
      retryRequestFrom requestFn mr d fuel attempt calls waits
        = ⟨requestFn k, calls + n + 1,
            waits ++ (List.range' attempt n).map (fun j => d * j)⟩ := by
  intro n
  induction n with
  | zero =>
    intro attempt fuel calls waits hsum hfuel hk hfalsy htruthy
    obtain ⟨f, rfl⟩ : ∃ f, fuel = f + 1 := ⟨fuel - 1, by omega⟩
    have ha : attempt = k := by omega
    subst ha
    simp [retryRequestFrom, (by omega : attempt ≤ mr), htruthy]
  | succ n ih =>
    intro attempt fuel calls waits hsum hfuel hk hfalsy htruthy
    obtain ⟨f, rfl⟩ : ∃ f, fuel = f + 1 := ⟨fuel - 1, by omega⟩
    have h1 : attempt ≤ mr := by omega
    have h2 : attempt ≠ mr := by omega
    simp only [retryRequestFrom, if_pos h1,
      hfalsy attempt le_rfl (by omega), Bool.false_eq_true, if_false,
      if_neg h2]
    rw [ih (attempt + 1) f (calls + 1) (waits ++ [d * attempt])
      (by omega) (by omega) hk
      (fun j hj1 hj2 => hfalsy j (by omega) hj2) htruthy]
    simp only [RetryTrace.mk.injEq, true_and]
    refine ⟨by omega, ?_⟩
    simp [List.range'_succ, List.append_assoc]

lemma exactlyOne_retryRequestFrom (requestFn : Nat → ApiResponse)
    (mr d : Nat) (h : ∀ k, exactlyOne (requestFn k)) :
    ∀ fuel attempt calls waits,
      exactlyOne ((retryRequestFrom requestFn mr d fuel attempt calls waits).result) := by
  intro fuel
  induction fuel with
  | zero =>
    intro attempt calls waits
    exact Or.inr ⟨rfl, by simp [retryRequestFrom]⟩
  | succ f ih =>
    intro attempt calls waits
    simp only [retryRequestFrom]
    split
    · split
      · exact h attempt
      · split
        · exact h attempt
        · exact ih (attempt + 1) (calls + 1) (waits ++ [d * attempt])
    · exact Or.inr ⟨rfl, by simp⟩

lemma atMostOne_makeRequest (network : String → Nat → FetchOutcome)
    (url : String) (k : Nat) : atMostOne (makeRequest network url k) := by
  unfold makeRequest
  cases tryBlock (network url k) with
  | ok b => exact Or.inr rfl
  | error t => exact Or.inl rfl

lemma atMostOne_retryRequestFrom (requestFn : Nat → ApiResponse)
    (mr d : Nat) (h : ∀ k, atMostOne (requestFn k)) :
    ∀ fuel attempt calls waits,
      atMostOne ((retryRequestFrom requestFn mr d fuel attempt calls waits).result) := by
  intro fuel
  induction fuel with
  | zero =>
    intro attempt calls waits
    exact Or.inl rfl
  | succ f ih =>
    intro attempt calls waits
    simp only [retryRequestFrom]
    split
    · split
      · exact h attempt
      · split
        · exact h attempt
        · exact ih (attempt + 1) (calls + 1) (waits ++ [d * attempt])
    · exact Or.inl rfl

lemma atMostOne_makeCachedRequest (st : SrvState) (url key : String)
    (network : String → Nat → FetchOutcome) (now1 now2 : Nat)
    (hpend : ∀ p, mapGet st.pending key = some p → atMostOne p.result) :
    atMostOne (makeCachedRequest st url key network now1 now2).1 := by
  by_cases hc : ((getCachedData st key now1).1).truthy = true
  · simp only [makeCachedRequest, startRequest, if_pos hc]
    exact Or.inr rfl
  · have hc2 : ((getCachedData st key now1).1).truthy = false := by
      cases h2 : ((getCachedData st key now1).1).truthy
      · rfl
      · exact absurd h2 hc
    cases hp : mapGet (getCachedData st key now1).2.pending key with
    | some p =>
      simp only [makeCachedRequest, startRequest, hc2, Bool.false_eq_true,
        if_false, hp]
      exact hpend p (by rwa [getCachedData_pending] at hp)
    | none =>
      simp only [makeCachedRequest, startRequest, hc2, Bool.false_eq_true,
        if_false, hp]
      exact atMostOne_retryRequestFrom (fun n => makeRequest network url n)
        3 1000 (fun k => atMostOne_makeRequest network url k) (3 + 1) 1 0 []

lemma exactlyOne_makeCachedRequest (st : SrvState) (url key : String)
    (network : String → Nat → FetchOutcome) (now1 now2 : Nat)
    (hnet : ∀ n b, tryBlock (network url n) = .ok b → b ≠ .jnull)
    (hpend : ∀ p, mapGet st.pending key = some p → exactlyOne p.result) :
    exactlyOne (makeCachedRequest st url key network now1 now2).1 := by
  have hfn : ∀ k, exactlyOne (makeRequest network url k) := by
    intro k
    unfold makeRequest
    cases ht : tryBlock (network url k) with
    | ok b => exact Or.inl ⟨hnet k b ht, rfl⟩
    | error t => exact Or.inr ⟨rfl, by simp⟩
  by_cases hc : ((getCachedData st key now1).1).truthy = true
  · simp only [makeCachedRequest, startRequest, if_pos hc]
    exact Or.inl ⟨truthy_ne_jnull hc, rfl⟩
  · have hc2 : ((getCachedData st key now1).1).truthy = false := by
      cases h2 : ((getCachedData st key now1).1).truthy
      · rfl
      · exact absurd h2 hc
    cases hp : mapGet (getCachedData st key now1).2.pending key with
    | some p =>
      simp only [makeCachedRequest, startRequest, hc2, Bool.false_eq_true,
        if_false, hp]
      exact hpend p (by rwa [getCachedData_pending] at hp)
    | none =>
      simp only [makeCachedRequest, startRequest, hc2, Bool.false_eq_true,
        if_false, hp]
      exact exactlyOne_retryRequestFrom (fun n => makeRequest network url n)
        3 1000 hfn (3 + 1) 1 0 []

lemma getCachedData_fst_eq_of_cache_eq (st1 st2 : SrvState) (key : String)
    (now : Nat) (h : st1.cache = st2.cache) :
    (getCachedData st1 key now).1 = (getCachedData st2 key now).1 := by
  unfold getCachedData
  rw [h]
  cases mapGet st2.cache key with
  | none => rfl
  | some c =>
    dsimp only
    split <;> rfl

lemma getCachedData_falsy_cache_eq (st1 st2 : SrvState) (key : String)
    (now2 : Nat) (h : st1.cache = st2.cache)
    (hf : ((getCachedData st2 key now2).1).truthy = false) :
    ((getCachedData st1 key now2).1).truthy = false := by
  rw [getCachedData_fst_eq_of_cache_eq st1 st2 key now2 h]
  exact hf

lemma startRequest_fresh (st : SrvState) (key : String) (now : Nat)
    (r : ApiResponse)
    (hc : ((getCachedData st key now).1).truthy = false)
    (hp : mapGet st.pending key = none) :
    startRequest st key now r
      = (.started ⟨(getCachedData st key now).2.nextOpId, r⟩,
         { (getCachedData st key now).2 with
             pending := mapSet (getCachedData st key now).2.pending key
               ⟨(getCachedData st key now).2.nextOpId, r⟩,
             nextOpId := (getCachedData st key now).2.nextOpId + 1 }) := by
  have hp2 : mapGet (getCachedData st key now).2.pending key = none := by
    rw [getCachedData_pending]
    exact hp
  simp only [startRequest, hc, Bool.false_eq_true, if_false, hp2]

lemma makeCachedRequest_joined (st : SrvState) (url key : String)
    (network : String → Nat → FetchOutcome) (now1 now2 : Nat)
    (p : PendingEntry)
    (hc : ((getCachedData st key now1).1).truthy = false)
    (hp : mapGet st.pending key = some p) :
    makeCachedRequest st url key network now1 now2
      = (p.result, (getCachedData st key now1).2, 0) := by
  have hp2 : mapGet (getCachedData st key now1).2.pending key = some p := by
    rw [getCachedData_pending]
    exact hp
  simp only [makeCachedRequest, startRequest, hc, Bool.false_eq_true,
    if_false, hp2]

lemma makeCachedRequest_hit (st : SrvState) (url key : String)
    (network : String → Nat → FetchOutcome) (now1 now2 : Nat)
    (e : CacheEntry) (hF : mapGet st.cache key = some e)
    (hfresh : now1 - e.timestamp ≤ CACHE_DURATION)
    (htruthy : e.data.truthy = true) :
    makeCachedRequest st url key network now1 now2
      = (⟨e.data, none⟩, st, 0) := by
  have hcd : getCachedData st key now1 = (e.data, st) := by
    simp [getCachedData, hF, Nat.not_lt.mpr hfresh]
  simp [makeCachedRequest, startRequest, hcd, htruthy]

lemma makeCachedRequest_miss (st : SrvState) (url key : String)
    (network : String → Nat → FetchOutcome) (now1 now2 : Nat)
    (hc : ((getCachedData st key now1).1).truthy = false)
    (hp : mapGet st.pending key = none) :
    (makeCachedRequest st url key network now1 now2).1
      = (retryRequest (fun n => makeRequest network url n) 3 1000).result
    ∧ 1 ≤ (makeCachedRequest st url key network now1 now2).2.2 := by
  have hp2 : mapGet (getCachedData st key now1).2.pending key = none := by
    rw [getCachedData_pending]
    exact hp
  simp only [makeCachedRequest, startRequest, hc, Bool.false_eq_true,
    if_false, hp2]
  exact ⟨trivial, retryRequest_calls_pos _ 3 1000 (by omega)⟩

/- ### Claim theorems -/

/-- C2: when every attempt's raw fetch genuinely fails (rejection,
non-2xx status, or a throwing body parse), the retrying fetch invokes the
raw request exactly `maxRetries` times, waits `attempt * delay`
milliseconds after each non-final failed attempt (`1*d, 2*d, ...,
(maxRetries-1)*d` — linear in the attempt number, not exponential), and
returns the final attempt's response verbatim, so the caller sees the
last attempt's error message, not a generic retries-exhausted one. -/
theorem retry_exhaustion_linear_backoff
    (network : String → Nat → FetchOutcome) (url : String) (mr d : Nat)
    (hmr : 1 ≤ mr)
    (hfail : ∀ k, 1 ≤ k → k ≤ mr →
      ∃ t, tryBlock (network url k) = .error t) :
    (retryRequest (fun n => makeRequest network url n) mr d).calls = mr
    ∧ (retryRequest (fun n => makeRequest network url n) mr d).waits
        = (List.range' 1 (mr - 1)).map (fun j => d * j)
    ∧ (retryRequest (fun n => makeRequest network url n) mr d).result
        = makeRequest network url mr := by
  have hfalsy : ∀ k, 1 ≤ k → k ≤ mr →
      ((makeRequest network url k).data).truthy = false := by
    intro k h1 h2
    obtain ⟨t, ht⟩ := hfail k h1 h2
    simp [makeRequest, ht, JsonValue.truthy]
  unfold retryRequest
  rw [retryRequestFrom_all_falsy (fun n => makeRequest network url n) mr d
    (mr - 1) 1 (mr + 1) 0 [] (by omega) (by omega)
    (fun k hk1 hk2 => hfalsy k hk1 hk2)]
  refine ⟨by simp; omega, by simp, rfl⟩

/-- Witness for the retry-exhaustion theorem: the always-rejecting
network with the default `maxRetries = 3`, `delay = 1000` performs three
raw calls, waits 1000 then 2000 ms, and returns the third attempt's
response. -/
theorem retry_exhaustion_linear_backoff_witness :
    (retryRequest (fun n => makeRequest cnetFail USERS_ENDPOINT n) 3 1000).calls = 3
    ∧ (retryRequest (fun n => makeRequest cnetFail USERS_ENDPOINT n) 3 1000).waits
        = [1000, 2000]
    ∧ (retryRequest (fun n => makeRequest cnetFail USERS_ENDPOINT n) 3 1000).result
        = makeRequest cnetFail USERS_ENDPOINT 3 :=
  retry_exhaustion_linear_backoff cnetFail USERS_ENDPOINT 3 1000 (by omega)
    (fun _ _ _ => ⟨.errorObj "Network down", rfl⟩)

/-- C4 counterexample: a response whose data is the number 0 — non-null —
does not short-circuit the retry loop: all three attempts run and both
backoff waits are awaited. -/
theorem retry_nonnull_no_short_circuit_cex :
    (zeroDataFn 1).data ≠ JsonValue.jnull
    ∧ (retryRequest zeroDataFn 3 1000).calls = 3
    ∧ (retryRequest zeroDataFn 3 1000).waits = [1000, 2000] :=
  ⟨fun h => JsonValue.noConfusion h, rfl, rfl⟩

/-- C4 (amended): a response whose data is JS-truthy short-circuits the
retry loop immediately: if every attempt before `k` produced falsy data
and attempt `k` produces truthy data, attempt `k`'s response is returned
with exactly `k` raw invocations and only the earlier attempts' waits;
non-null but falsy data (the number 0, the empty string, `false`) is
instead treated as a failed attempt and retried. -/
theorem retry_truthy_short_circuits (requestFn : Nat → ApiResponse)
    (mr d k : Nat) (h1 : 1 ≤ k) (h2 : k ≤ mr)
    (hbefore : ∀ j, 1 ≤ j → j < k → ((requestFn j).data).truthy = false)
    (hk : ((requestFn k).data).truthy = true) :
    retryRequest requestFn mr d
      = ⟨requestFn k, k, (List.range' 1 (k - 1)).map (fun j => d * j)⟩ := by
  unfold retryRequest
  rw [retryRequestFrom_short_circuit requestFn mr d k (k - 1) 1 (mr + 1) 0 []
    (by omega) (by omega) h2 (fun j hj1 hj2 => hbefore j hj1 hj2) hk]
  simp only [RetryTrace.mk.injEq, true_and]
  exact ⟨by omega, by simp⟩

/-- Witness for the truthy short-circuit theorem: a first-attempt truthy
array body returns after one raw call with no waits. -/
theorem retry_truthy_short_circuits_witness :
    retryRequest (fun n => makeRequest cnetOk USERS_ENDPOINT n) 3 1000
      = ⟨⟨.jarr [.jnum 7], none⟩, 1, []⟩ :=
  retry_truthy_short_circuits (fun n => makeRequest cnetOk USERS_ENDPOINT n)
    3 1000 1 (by omega) (by omega) (fun j hj1 hj2 => by omega) rfl

/-- C8: no exception crosses the request boundary — each of the three
failure taxonomies (rejected fetch, non-2xx response, throwing JSON
parse) is caught inside `makeRequest` and converted into
`{ data: null, error: message }`, and a parsed 2xx body comes back as
`{ data, error: null }`; every fetch outcome yields a plain response
value, so the public operations built on it resolve rather than
reject. -/
theorem no_exception_crosses_boundary (url : String) (n s : Nat)
    (t : JsThrown) (body : Except JsThrown JsonValue) (b : JsonValue) :
    makeRequest (fun _ _ => .rejected t) url n
      = ⟨.jnull, some (jsThrownMessage t)⟩
    ∧ makeRequest (fun _ _ => .resolved false s body) url n
      = ⟨.jnull, some ("HTTP error! status: " ++ toString s)⟩
    ∧ makeRequest (fun _ _ => .resolved true s (.error t)) url n
      = ⟨.jnull, some (jsThrownMessage t)⟩
    ∧ makeRequest (fun _ _ => .resolved true s (.ok b)) url n
      = ⟨b, none⟩ :=
  ⟨rfl, rfl, rfl, rfl⟩

/-- C6: a non-2xx response yields
`{ data: null, error: "HTTP error! status: {status}" }` with the actual
status substituted, and settling with any response whose data is null
leaves the cache exactly as it was: no entry is created or replaced. -/
theorem http_error_never_cached (network : String → Nat → FetchOutcome)
    (url : String) (n s : Nat) (body : Except JsThrown JsonValue)
    (st : SrvState) (key : String) (r : ApiResponse) (now : Nat)
    (hhttp : network url n = .resolved false s body)
    (hr : r.data = JsonValue.jnull) :
    makeRequest network url n
      = ⟨.jnull, some ("HTTP error! status: " ++ toString s)⟩
    ∧ (settleRequest st key r now).cache = st.cache := by
  constructor
  · simp [makeRequest, tryBlock, hhttp, jsThrownMessage]
  · simp [settleRequest, hr, JsonValue.truthy]

/-- Witness for the HTTP-error theorem: a 500 response produces the
status-bearing message and settling with it leaves the cache of a state
with an existing entry unchanged. -/
theorem http_error_never_cached_witness :
    makeRequest cnet500 USERS_ENDPOINT 1
      = ⟨.jnull, some "HTTP error! status: 500"⟩
    ∧ (settleRequest stInFlight "users"
        ⟨.jnull, some "HTTP error! status: 500"⟩ 9).cache
      = stInFlight.cache :=
  http_error_never_cached cnet500 USERS_ENDPOINT 1 500 (.ok (.jobj []))
    stInFlight "users" ⟨.jnull, some "HTTP error! status: 500"⟩ 9 rfl rfl

/-- C1: for a key with no usable cache entry and no pending operation,
starting a request registers the pending entry synchronously
(`startRequest` returns the started operation already visible in the
table), a second call for the same key while the operation is in flight
returns that same operation's response with zero raw fetches of its own
(so the raw fetch runs exactly once and both callers resolve to the
same response value), and settling — with any response, success or
failure — removes the pending entry unconditionally. -/
theorem single_flight_per_key (st : SrvState) (key url : String)
    (now1 now2 : Nat) (r : ApiResponse)
    (network : String → Nat → FetchOutcome)
    (hcache : ((getCachedData st key now1).1).truthy = false)
    (hpend : mapGet st.pending key = none) :
    ∃ p st1,
      startRequest st key now1 r = (.started p, st1)
      ∧ p.result = r
      ∧ mapGet st1.pending key = some p
      ∧ (∃ st2, makeCachedRequest st1 url key network now2 now2
            = (r, st2, 0) ∧ st2.pending = st1.pending)
      ∧ (∀ res now3,
          mapGet (settleRequest st1 key res now3).pending key = none) := by
  refine ⟨⟨(getCachedData st key now1).2.nextOpId, r⟩, _,
    startRequest_fresh st key now1 r hcache hpend, rfl, ?_, ?_, ?_⟩
  · exact mapGet_mapSet_self _ key _
  · refine ⟨_, makeCachedRequest_joined _ url key network now2 now2
      ⟨(getCachedData st key now1).2.nextOpId, r⟩
      (getCachedData_falsy_cache_eq _ (getCachedData st key now1).2 key
        now2 rfl (getCachedData_again_falsy st key now1 now2 hcache))
      (mapGet_mapSet_self _ key _), ?_⟩
    exact getCachedData_pending _ key now2
  · intro res now3
    exact mapGet_mapDelete_self _ key

/-- Witness for the single-flight theorem: the empty state, key
`"users"`, and a response carrying a one-element array. -/
theorem single_flight_per_key_witness :
    ∃ p st1,
      startRequest emptySt "users" 0 ⟨.jarr [.jnum 7], none⟩
        = (.started p, st1)
      ∧ p.result = ⟨.jarr [.jnum 7], none⟩
      ∧ mapGet st1.pending "users" = some p
      ∧ (∃ st2, makeCachedRequest st1 USERS_ENDPOINT "users" cnetOk 0 0
            = (⟨.jarr [.jnum 7], none⟩, st2, 0) ∧ st2.pending = st1.pending)
      ∧ (∀ res now3,
          mapGet (settleRequest st1 "users" res now3).pending "users"
            = none) :=
  single_flight_per_key emptySt "users" USERS_ENDPOINT 0 0
    ⟨.jarr [.jnum 7], none⟩ cnetOk rfl rfl

/-- C3: a cache entry with `now - storedAt ≤ ttl` and usable data makes
the cached request return `{ data: entry.value, error: null }` with zero
raw fetches and no state change; an entry with `now - storedAt > ttl` is
deleted lazily at lookup time, and the call (with nothing in flight for
the key) then performs at least one fresh raw fetch. -/
theorem cache_ttl_fresh_and_expired (stF : SrvState) (keyF : String)
    (nowF : Nat) (eF : CacheEntry) (stE : SrvState) (keyE urlE : String)
    (nowE nowS : Nat) (eE : CacheEntry)
    (network : String → Nat → FetchOutcome)
    (hF : mapGet stF.cache keyF = some eF)
    (hFfresh : nowF - eF.timestamp ≤ CACHE_DURATION)
    (hFtruthy : eF.data.truthy = true)
    (hE : mapGet stE.cache keyE = some eE)
    (hEexp : nowE - eE.timestamp > CACHE_DURATION)
    (hEpend : mapGet stE.pending keyE = none) :
    (∀ url network2 now2,
      makeCachedRequest stF url keyF network2 nowF now2
        = (⟨eF.data, none⟩, stF, 0))
    ∧ getCachedData stE keyE nowE
        = (.jnull, { stE with cache := mapDelete stE.cache keyE })
    ∧ 1 ≤ (makeCachedRequest stE urlE keyE network nowE nowS).2.2 := by
  have hcdE : getCachedData stE keyE nowE
      = (.jnull, { stE with cache := mapDelete stE.cache keyE }) := by
    simp [getCachedData, hE, hEexp]
  refine ⟨?_, hcdE, ?_⟩
  · intro url network2 now2
    exact makeCachedRequest_hit stF url keyF network2 nowF now2 eF hF
      hFfresh hFtruthy
  · exact (makeCachedRequest_miss stE urlE keyE network nowE nowS
      (by rw [hcdE]; rfl) hEpend).2

/-- Witness for the TTL theorem: the entry stored at time 5 is served at
time 10 and expired at time 300006 (TTL 300000). -/
theorem cache_ttl_fresh_and_expired_witness :
    (∀ url network2 now2,
      makeCachedRequest stCachedOnly url "users" network2 10 now2
        = (⟨.jarr [.jnum 7], none⟩, stCachedOnly, 0))
    ∧ getCachedData stCachedOnly "users" 300006
        = (.jnull, { stCachedOnly with
            cache := mapDelete stCachedOnly.cache "users" })
    ∧ 1 ≤ (makeCachedRequest stCachedOnly USERS_ENDPOINT "users" cnetOk
        300006 300006).2.2 :=
  cache_ttl_fresh_and_expired stCachedOnly "users" 10 ⟨.jarr [.jnum 7], 5⟩
    stCachedOnly "users" USERS_ENDPOINT 300006 300006 ⟨.jarr [.jnum 7], 5⟩
    cnetOk rfl (by decide) rfl rfl (by decide) rfl

/-- C5 counterexample: with every fetch resolving 2xx with JSON body
`null`, `getUsers` returns a response whose `data` and `error` are both
null — the claimed exactly-one-non-null shape fails. -/
theorem result_both_null_cex :
    (getUsersCall emptySt cnetNull 0 0).1 = ⟨.jnull, none⟩
    ∧ ¬ exactlyOne (getUsersCall emptySt cnetNull 0 0).1 := by
  refine ⟨rfl, ?_⟩
  intro h
  rcases h with ⟨h1, _⟩ | ⟨_, h2⟩
  · exact h1 rfl
  · exact h2 rfl

/-- C5 (amended): the two fields are never both non-null.  For every
network — including one whose 2xx bodies parse to JSON `null` — every
response the service constructs has at most one non-null field: the raw
`makeRequest` response, the retry loop's response (which is also what
every pending entry the service registers carries), and the responses of
`getUsers` and `getUserById` (given only that already-pending entries
have the same at-most-one shape, the invariant just established).  Both
fields null occurs, but only for a 2xx body parsing to JSON `null` (the
counterexample): when no attempt in the run parses a 2xx body to `null`
(and pending entries are exactly-one-shaped), exactly one field is
non-null. -/
theorem result_shape_amended (stA stE : SrvState) (idA idE : Int)
    (networkA networkE : String → Nat → FetchOutcome)
    (nowA1 nowA2 nowE1 nowE2 : Nat)
    (hpendA : ∀ k p, mapGet stA.pending k = some p → atMostOne p.result)
    (hnetE : ∀ u n b, tryBlock (networkE u n) = .ok b → b ≠ JsonValue.jnull)
    (hpendE : ∀ k p, mapGet stE.pending k = some p → exactlyOne p.result) :
    (∀ url n, atMostOne (makeRequest networkA url n))
    ∧ (∀ url, atMostOne
        ((retryRequest (fun n => makeRequest networkA url n) 3 1000).result))
    ∧ atMostOne (getUsersCall stA networkA nowA1 nowA2).1
    ∧ atMostOne (getUserByIdCall idA stA networkA nowA1 nowA2).1
    ∧ exactlyOne (getUsersCall stE networkE nowE1 nowE2).1
    ∧ exactlyOne (getUserByIdCall idE stE networkE nowE1 nowE2).1 :=
  ⟨fun url n => atMostOne_makeRequest networkA url n,
   fun url => atMostOne_retryRequestFrom
      (fun n => makeRequest networkA url n) 3 1000
      (fun k => atMostOne_makeRequest networkA url k) (3 + 1) 1 0 [],
   atMostOne_makeCachedRequest stA USERS_ENDPOINT "users" networkA
      nowA1 nowA2 (fun p hp => hpendA "users" p hp),
   atMostOne_makeCachedRequest stA (USERS_ENDPOINT ++ "/" ++ toString idA)
      ("user-" ++ toString idA) networkA nowA1 nowA2
      (fun p hp => hpendA ("user-" ++ toString idA) p hp),
   exactlyOne_makeCachedRequest stE USERS_ENDPOINT "users" networkE
      nowE1 nowE2 (fun n b hb => hnetE USERS_ENDPOINT n b hb)
      (fun p hp => hpendE "users" p hp),
   exactlyOne_makeCachedRequest stE (USERS_ENDPOINT ++ "/" ++ toString idE)
      ("user-" ++ toString idE) networkE nowE1 nowE2
      (fun n b hb => hnetE (USERS_ENDPOINT ++ "/" ++ toString idE) n b hb)
      (fun p hp => hpendE ("user-" ++ toString idE) p hp)⟩

/-- Witness for the amended result-shape theorem: the at-most-one part
is instantiated at the 2xx-with-body-`null` network itself (where the
exactly-one shape fails), the exactly-one part at a network answering a
one-element array; both on the empty state. -/
theorem result_shape_amended_witness :
    (∀ url n, atMostOne (makeRequest cnetNull url n))
    ∧ (∀ url, atMostOne
        ((retryRequest (fun n => makeRequest cnetNull url n) 3 1000).result))
    ∧ atMostOne (getUsersCall emptySt cnetNull 0 0).1
    ∧ atMostOne (getUserByIdCall 0 emptySt cnetNull 0 0).1
    ∧ exactlyOne (getUsersCall emptySt cnetOk 0 0).1
    ∧ exactlyOne (getUserByIdCall 1 emptySt cnetOk 0 0).1 :=
  result_shape_amended emptySt emptySt 0 1 cnetNull cnetOk 0 0 0 0
    (fun k p h => Option.noConfusion h)
    (fun u n b hb => by
      have h2 : (Except.ok (JsonValue.jarr [.jnum 7])
          : Except JsThrown JsonValue) = .ok b := hb
      injection h2 with h3
      subst h3
      exact fun hc => JsonValue.noConfusion hc)
    (fun k p h => Option.noConfusion h)

/-- C7 counterexample: with an operation for `"users"` still in flight,
a `getUsers` call made right after `clearCache()` joins the in-flight
operation and performs zero raw fetches — it does not always issue a new
network call. -/
theorem clearCache_pending_no_refetch_cex :
    (getUsersCall (clearCache stInFlight) cnetOk 6 6).2.2 = 0
    ∧ (getUsersCall (clearCache stInFlight) cnetOk 6 6).1
        = ⟨.jarr [.jnum 7], none⟩ :=
  ⟨rfl, rfl⟩

/-- C7 (amended): `clearCache` evicts every cached entry unconditionally
and leaves the pending-request table in place, and a subsequent cached
request for a key with no operation in flight always performs at least
one fresh raw fetch, even within the TTL window; a key whose operation
is still in flight instead joins it (see the counterexample). -/
theorem clearCache_then_refetch (st : SrvState) (key url : String)
    (network : String → Nat → FetchOutcome) (now1 now2 : Nat)
    (hpend : mapGet st.pending key = none) :
    (∀ k, mapGet (clearCache st).cache k = none)
    ∧ (clearCache st).pending = st.pending
    ∧ 1 ≤ (makeCachedRequest (clearCache st) url key network now1 now2).2.2 := by
  refine ⟨fun k => rfl, rfl, ?_⟩
  exact (makeCachedRequest_miss (clearCache st) url key network now1 now2
    rfl hpend).2

/-- Witness for the clear-cache theorem: clearing the cached-only state
and refetching within the TTL window. -/
theorem clearCache_then_refetch_witness :
    (∀ k, mapGet (clearCache stCachedOnly).cache k = none)
    ∧ (clearCache stCachedOnly).pending = stCachedOnly.pending
    ∧ 1 ≤ (makeCachedRequest (clearCache stCachedOnly) USERS_ENDPOINT
        "users" cnetOk 6 6).2.2 :=
  clearCache_then_refetch stCachedOnly "users" USERS_ENDPOINT cnetOk 6 6 rfl

/-- C9: `clearCacheEntry k` touches at most the cache entry stored under
`k`: the cache entry of every other key and the whole pending-request
table are unchanged. -/
theorem clearCacheEntry_frame (st : SrvState) (k k2 : String)
    (h : k2 ≠ k) :
    mapGet (clearCacheEntry st k).cache k2 = mapGet st.cache k2
    ∧ (clearCacheEntry st k).pending = st.pending :=
  ⟨mapGet_mapDelete_ne st.cache k k2 h, rfl⟩

/-- Witness for the clear-one-entry frame theorem: deleting `"users"`
leaves the lookup of `"user-1"` and the pending table of the in-flight
state unchanged. -/
theorem clearCacheEntry_frame_witness :
    mapGet (clearCacheEntry stInFlight "users").cache "user-1"
      = mapGet stInFlight.cache "user-1"
    ∧ (clearCacheEntry stInFlight "users").pending = stInFlight.pending :=
  clearCacheEntry_frame stInFlight "users" "user-1" (by decide)

/-- C10: `getUserById` validates nothing: for every integer id —
including zero and negatives — it is exactly the cached, deduplicated,
retried request against URL `{base}/users/{id}` with cache key
`"user-{id}"`, and on a cache-and-pending miss its response is precisely
the retry loop's response for that URL. -/
theorem getUserById_no_validation (id : Int) (st : SrvState)
    (network : String → Nat → FetchOutcome) (now1 now2 : Nat)
    (hcache : mapGet st.cache ("user-" ++ toString id) = none)
    (hpend : mapGet st.pending ("user-" ++ toString id) = none) :
    getUserByIdCall id st network now1 now2
      = makeCachedRequest st (USERS_ENDPOINT ++ "/" ++ toString id)
          ("user-" ++ toString id) network now1 now2
    ∧ (getUserByIdCall id st network now1 now2).1
        = (retryRequest (fun n =>
            makeRequest network (USERS_ENDPOINT ++ "/" ++ toString id) n)
            3 1000).result := by
  refine ⟨rfl, ?_⟩
  have hc : ((getCachedData st ("user-" ++ toString id) now1).1).truthy
      = false := by
    simp [getCachedData, hcache, JsonValue.truthy]
  exact (makeCachedRequest_miss st (USERS_ENDPOINT ++ "/" ++ toString id)
    ("user-" ++ toString id) network now1 now2 hc hpend).1

/-- Witness for the no-validation theorem at the non-positive id `-1`. -/
theorem getUserById_no_validation_witness :
    getUserByIdCall (-1) emptySt cnetOk 0 0
      = makeCachedRequest emptySt
          (USERS_ENDPOINT ++ "/" ++ toString (-1 : Int))
          ("user-" ++ toString (-1 : Int)) cnetOk 0 0
    ∧ (getUserByIdCall (-1) emptySt cnetOk 0 0).1
        = (retryRequest (fun n =>
            makeRequest cnetOk (USERS_ENDPOINT ++ "/" ++ toString (-1 : Int)) n)
            3 1000).result :=
  getUserById_no_validation (-1) emptySt cnetOk 0 0 rfl rfl

end ApiSvc
